import Mathlib

/-!
# holen: strategy resolution and execution

A shallow embedding of `manifest.go` (`Manifest.LoadStrategy`), `strategy.go`
(`StrategyCommon.Templater`, `DockerStrategy.Run`, `BinaryStrategy.Run`) and the parts of
`system.go` / `config_api.go` they call, followed by theorems about them.

Conventions of the embedding:

* Go `string` is `String`; `len(s) == 0` is `s = ""`.
* A Go `interface{}` value decoded from YAML is a `Value`; a `map[interface{}]interface{}`
  is an association list read by first match (`Dict`), a `map[string]T` likewise.
* A Go call that may panic (failed type assertion, index out of range) or return an
  `error` yields `Except Failure _`: `Failure.error msg` is a returned error whose
  `Error()` text is `msg`, `Failure.panics` is a run-time panic.
* `LoadStrategy` mutates the manifest it is called on (`delete` on a map shared with the
  manifest), so the model returns the manifest after the call next to the result.
-/

namespace Holen

/-! ## Dynamic values -/

/-- Keys of a `map[interface{}]interface{}`: the hashable scalars a YAML document gives.
The code only ever looks up string keys, so every other numeric scalar stands as `int`. -/
inductive Key where
  | str (s : String)
  | int (n : Int)
  | bool (b : Bool)
  | null
  deriving DecidableEq, Repr

/-- A value of type `interface{}` as the YAML decoder produces it. The code asserts only
the dynamic types `string`, `bool`, `[]interface{}` and `map[interface{}]interface{}`;
every other scalar (integers, floats) fails those assertions alike and stands as `int`. -/
inductive Value where
  | str (s : String)
  | bool (b : Bool)
  | int (n : Int)
  | null
  | list (items : List Value)
  | map (entries : List (Key × Value))

/-- The Go type `map[interface{}]interface{}`. The nil map and the empty map are both `[]`. -/
abbrev Dict := List (Key × Value)

/-- Go `m[k]` in its two-result form `v, ok := m[k]`: `none` when `ok` is false. -/
def Dict.get (m : Dict) (k : Key) : Option Value :=
  match m with
  | [] => none
  | (k', v) :: rest => if k' = k then some v else Dict.get rest k

/-- Go `delete(m, k)`. -/
def Dict.delete (m : Dict) (k : Key) : Dict :=
  m.filter (fun e => decide (e.1 ≠ k))

/-- Go `m[k]` on a `map[string]T`, two-result form. -/
def smapGet {α : Type} (m : List (String × α)) (k : String) : Option α :=
  match m with
  | [] => none
  | (k', v) :: rest => if k' = k then some v else smapGet rest k

/-- Go `m[k] = v` on a `map[string]T` whose key `k` is present: the first entry under `k`
is replaced. (Absent keys leave the map unchanged; the model only stores under present keys.) -/
def smapSet {α : Type} (m : List (String × α)) (k : String) (v : α) : List (String × α) :=
  match m with
  | [] => []
  | (k', v') :: rest => if k' = k then (k', v) :: rest else (k', v') :: smapSet rest k v

/-! ## Strings: `strings.Split` and `strings.TrimSpace` -/

/-- Split a character list at every occurrence of `sep`; never returns `[]`. -/
def splitChars (sep : Char) : List Char → List (List Char)
  | [] => [[]]
  | c :: cs =>
    if c = sep then [] :: splitChars sep cs
    else
      match splitChars sep cs with
      | [] => [[c]]
      | w :: ws => (c :: w) :: ws

/-- Go `strings.Split(s, sep)` for a one-character separator: `Split("", ",")` is `[""]`. -/
def Split (s : String) (sep : Char) : List String :=
  (splitChars sep s.data).map String.mk

/-- Go `unicode.IsSpace`. -/
def isSpace (c : Char) : Bool :=
  let n := c.toNat
  n = 0x20 || (0x09 ≤ n && n ≤ 0x0D) || n = 0x85 || n = 0xA0 || n = 0x1680 ||
  (0x2000 ≤ n && n ≤ 0x200A) || n = 0x2028 || n = 0x2029 || n = 0x202F || n = 0x205F ||
  n = 0x3000

/-- Go `strings.TrimSpace`: drop leading and trailing white space. -/
def TrimSpace (s : String) : String :=
  String.mk ((s.data.dropWhile isSpace).reverse.dropWhile isSpace).reverse

/-! ## Outcomes -/

/-- How a Go call can fail: by returning an `error` (with its `Error()` text) or by panicking. -/
inductive Failure where
  | error (msg : String)
  | panics
  deriving DecidableEq, Repr

/-! ## `config_api.go` -/

/-- The type `RealConfigClient`. -/
structure RealConfigClient where
  systemConfig : String
  userConfig : String
  deriving DecidableEq, Repr

/-- What the process environment provides to `NewDefaultConfigClient`: `os.Getenv` and the
standard library's `filepath.Join`. -/
structure Host where
  Getenv : String → String
  Join : List String → String

/-- The function `NewDefaultConfigClient` (the directory it creates on the way is not modelled). -/
def NewDefaultConfigClient (host : Host) : Except String RealConfigClient :=
  let xdgConfigHome := host.Getenv "XDG_CONFIG_HOME"
  let baseDir : Except String String :=
    if xdgConfigHome ≠ "" then .ok (host.Join [xdgConfigHome, "holen"])
    else
      let home := host.Getenv "HOME"
      if home = "" then .error "$HOME environment variable not found"
      else .ok (host.Join [home, ".config", "holen"])
  match baseDir with
  | .error e => .error e
  | .ok dir => .ok { systemConfig := "/etc/holenconfig", userConfig := host.Join [dir, "config"] }

/-! ## `strategy.go`: data -/

/-- The capabilities `System`, `Downloader` and `Runner` of `system.go`, as the results their
methods give; an `error` result is `some msg`, `nil` is `none`. -/
structure Capabilities where
  OS : String
  Arch : String
  MakeExecutable : String → Option String
  DownloadFile : String → String → Option String
  PullDockerImage : String → Option String
  RunCommand : String → List String → Option String
  ExecCommand : String → List String → Option String
  ExecCommandWithEnv : String → List String → List String → Option String

/-- The type `StrategyCommon` (the embedded `Logger` has no effect on results and is left out). -/
structure StrategyCommon where
  caps : Capabilities
  ConfigGetter : RealConfigClient

/-- The type `Templater`: the template context. -/
structure Templater where
  Version : String
  OS : String
  Arch : String
  MappedArch : String
  deriving DecidableEq, Repr

/-- The type `DockerData`. -/
structure DockerData where
  Version : String
  Image : String
  MountPwd : Bool
  DockerConn : Bool
  Interactive : Bool
  ArchMap : List (String × String)
  deriving DecidableEq, Repr

/-- The type `BinaryData`. -/
structure BinaryData where
  Version : String
  BaseUrl : String
  ArchMap : List (String × String)
  deriving DecidableEq, Repr

/-- The type `DockerStrategy`. -/
structure DockerStrategy where
  common : StrategyCommon
  Data : DockerData

/-- The type `BinaryStrategy`. -/
structure BinaryStrategy where
  common : StrategyCommon
  Data : BinaryData

/-- The values a non-nil `Strategy` interface can hold. The nil interface is `none` in
`Option Strategy`. -/
inductive Strategy where
  | docker (s : DockerStrategy)
  | binary (s : BinaryStrategy)

/-- The `Version` field of the descriptor a strategy carries. -/
def Strategy.Version : Strategy → String
  | .docker s => s.Data.Version
  | .binary s => s.Data.Version

/-! ## `manifest.go` -/

/-- The type `NameVer`: the requested utility; `Version` is `""` when none is requested. -/
structure NameVer where
  Name : String
  Version : String
  deriving DecidableEq, Repr

/-- The type `ManifestData`. -/
structure ManifestData where
  Name : String
  Strategies : List (String × Dict)

/-- The type `Manifest`: `Get` is the embedded `ConfigGetter` (the `Logger` is left out). -/
structure Manifest where
  Get : String → Except String String
  Data : ManifestData

/-- Modelled from the spec: `mergeMaps`, which `LoadStrategy` calls and neither
`manifest.go` nor the other source files define. "The element-wise union of StrategyBlock
(minus `versions`) and the selected VersionRecord, where VersionRecord keys take precedence
on conflict"; it "must not mutate the original VersionRecord", so the result is a fresh
map. -/
def mergeMaps (m1 m2 : Dict) : Dict :=
  m2 ++ m1.filter (fun e => (Dict.get m2 e.1).isNone)

/-- Lines 77-81 of `LoadStrategy`: the priority string. -/
def priorityOf (m : Manifest) : String :=
  match m.Get "strategy.priority" with
  | .ok configPriority => if configPriority ≠ "" then configPriority else "docker,binary"
  | .error _ => "docker,binary"

/-- Lines 85-94 of `LoadStrategy`: the loop over the split priority string; returns
`(selectedStrategy, foundStrategy)`, both at their zero value when the loop finds nothing. -/
def selectLoop (strategies : List (String × Dict)) : List String → String × Dict
  | [] => ("", [])
  | t :: rest =>
    match smapGet strategies (TrimSpace t) with
    | some strategy => (TrimSpace t, strategy)
    | none => selectLoop strategies rest

/-- The pair `(selectedStrategy, foundStrategy)` `LoadStrategy` computes for a manifest. -/
def selectStrategy (m : Manifest) : String × Dict :=
  selectLoop m.Data.Strategies (Split (priorityOf m) ',')

/-- Go `x == s` for an `interface{}` value `x` (possibly the missing-key nil) and a string `s`. -/
def eqString : Option Value → String → Bool
  | some (.str x), s => decide (x = s)
  | _, _ => false

/-- Lines 105-110 of `LoadStrategy`: the loop over `versions` with a requested version; the
accumulator is `selectedVersion` (`found` is true exactly when it is set). Every element is
type-asserted to a map, which panics on any other value. -/
def versionLoop (ver : String) : List Value → Option Dict → Except Failure (Option Dict)
  | [], sel => .ok sel
  | .map verInfo :: rest, sel =>
    if eqString (Dict.get verInfo (.str "version")) ver then versionLoop ver rest (some verInfo)
    else versionLoop ver rest sel
  | _ :: _, _ => .error .panics

/-- Lines 103-116 of `LoadStrategy`: the selected version record. -/
def selectVersion (ver : String) (versions : List Value) : Except Failure Dict :=
  if ver ≠ "" then
    match versionLoop ver versions none with
    | .error f => .error f
    | .ok (some selectedVersion) => .ok selectedVersion
    | .ok none => .error (.error ("Unable to find version " ++ ver))
  else
    match versions with
    | .map selectedVersion :: _ => .ok selectedVersion
    | _ => .error .panics

/-- Lines 130-132 of `LoadStrategy`: copy the entries, asserting keys and values are strings. -/
def archEntries : List (Key × Value) → Except Failure (List (String × String))
  | [] => .ok []
  | (.str k, .str v) :: rest =>
    match archEntries rest with
    | .ok out => .ok ((k, v) :: out)
    | .error f => .error f
  | _ :: _ => .error .panics

/-- Lines 126-133 of `LoadStrategy`: the typed arch map. -/
def archMapOf (final : Dict) : Except Failure (List (String × String)) :=
  match Dict.get final (.str "arch_map") with
  | none => .ok []
  | some (.map entries) => archEntries entries
  | some _ => .error .panics

/-- Go `v.(string)` on the result of a map lookup. -/
def asString : Option Value → Except Failure String
  | some (.str s) => .ok s
  | _ => .error .panics

/-- Go `ok && v.(bool)` on the result of a map lookup. -/
def andBool : Option Value → Except Failure Bool
  | none => .ok false
  | some (.bool b) => .ok b
  | some _ => .error .panics

/-- Go `!ok || v.(bool)` on the result of a map lookup. -/
def orBool : Option Value → Except Failure Bool
  | none => .ok true
  | some (.bool b) => .ok b
  | some _ => .error .panics

/-- Lines 160-170 of `LoadStrategy`: the `DockerData` literal, once `image` is known present. -/
def dockerData (final : Dict) (image : Value) (arch_map : List (String × String)) :
    Except Failure DockerData :=
  match asString (Dict.get final (.str "version")), asString (some image),
    andBool (Dict.get final (.str "mount_pwd")), andBool (Dict.get final (.str "docker_conn")),
    orBool (Dict.get final (.str "interactive")) with
  | .ok version, .ok img, .ok mountPwd, .ok dockerConn, .ok interactive =>
    .ok { Version := version, Image := img, MountPwd := mountPwd, DockerConn := dockerConn,
          Interactive := interactive, ArchMap := arch_map }
  | _, _, _, _, _ => .error .panics

/-- Lines 178-185 of `LoadStrategy`: the `BinaryData` literal, once `base_url` is known present. -/
def binaryData (final : Dict) (base_url : Value) (arch_map : List (String × String)) :
    Except Failure BinaryData :=
  match asString (Dict.get final (.str "version")), asString (some base_url) with
  | .ok version, .ok url => .ok { Version := version, BaseUrl := url, ArchMap := arch_map }
  | _, _ => .error .panics

/-- Lines 149-190 of `LoadStrategy`: the strategy-specific part. A kind that is neither
`docker` nor `binary` leaves `strat` at its zero value, the nil interface. -/
def buildStrategy (common : StrategyCommon) (selectedStrategy : String) (final : Dict)
    (arch_map : List (String × String)) : Except Failure (Option Strategy) :=
  if selectedStrategy = "docker" then
    match Dict.get final (.str "image") with
    | none => .error (.error "At least 'image' needed for docker strategy to work")
    | some image =>
      match dockerData final image arch_map with
      | .ok data => .ok (some (.docker { common := common, Data := data }))
      | .error f => .error f
  else if selectedStrategy = "binary" then
    match Dict.get final (.str "base_url") with
    | none => .error (.error "At least 'base_url' needed for binary strategy to work")
    | some base_url =>
      match binaryData final base_url arch_map with
      | .ok data => .ok (some (.binary { common := common, Data := data }))
      | .error f => .error f
  else .ok none

/-- Lines 126-190 of `LoadStrategy`: everything after the merge. `caps` are the default
`System`, `Downloader` and `Runner` the strategy is given. -/
def finishStrategy (host : Host) (caps : Capabilities) (selectedStrategy : String)
    (final : Dict) : Except Failure (Option Strategy) :=
  match archMapOf final with
  | .error f => .error f
  | .ok arch_map =>
    match NewDefaultConfigClient host with
    | .error e => .error (.error e)
    | .ok conf => buildStrategy { caps := caps, ConfigGetter := conf } selectedStrategy final arch_map

/-- The method `Manifest.LoadStrategy`. Returns the Go result pair (`.ok strat` when the
error is nil, where `strat = none` is the nil `Strategy`) and the manifest after the call:
`foundStrategy` is the very map stored in `m.Data.Strategies`, so `delete` changes it. -/
def LoadStrategy (host : Host) (caps : Capabilities) (m : Manifest) (utility : NameVer) :
    Except Failure (Option Strategy) × Manifest :=
  let priority := priorityOf m
  let selectedStrategy := (selectStrategy m).1
  let foundStrategy := (selectStrategy m).2
  if selectedStrategy = "" then
    (.error (.error ("No strategy found, tried " ++ priority ++ ".")), m)
  else
    match Dict.get foundStrategy (.str "versions") with
    | some (.list versions) =>
      match selectVersion utility.Version versions with
      | .error f => (.error f, m)
      | .ok selectedVersion =>
        let stripped := Dict.delete foundStrategy (.str "versions")
        let after : Manifest :=
          { m with Data := { m.Data with
              Strategies := smapSet m.Data.Strategies selectedStrategy stripped } }
        (finishStrategy host caps selectedStrategy (mergeMaps stripped selectedVersion), after)
    | _ => (.error .panics, m)

/-! ## `strategy.go`: behaviour -/

/-- The method `StrategyCommon.Templater`; a missing key of a Go `map[string]string` reads
as `""`. -/
def StrategyCommon.Templater (version : String) (archMap : List (String × String))
    (system : Capabilities) : Templater :=
  let archKey := system.OS ++ "_" ++ system.Arch
  let value := (smapGet archMap archKey).getD ""
  { Version := version, OS := system.OS, Arch := system.Arch, MappedArch := value }

/-- A call a strategy makes on one of its capabilities. -/
inductive Call where
  | PullDockerImage (image : String)
  | DownloadFile (url path : String)
  | MakeExecutable (path : String)
  | RunCommand (command : String) (args : List String)
  | ExecCommand (command : String) (args : List String)
  | ExecCommandWithEnv (command : String) (args : List String) (extraEnv : List String)
  deriving DecidableEq, Repr

/-- Whether a call is one of the Runner's exec-replace methods. -/
def Call.isExecReplace : Call → Bool
  | .ExecCommand _ _ => true
  | .ExecCommandWithEnv _ _ _ => true
  | _ => false

/-- Whether a call is made on the Runner (rather than on the Downloader or the System). -/
def Call.isRunner : Call → Bool
  | .RunCommand _ _ => true
  | .ExecCommand _ _ => true
  | .ExecCommandWithEnv _ _ _ => true
  | _ => false

/-- Go `errors.Wrap(err, message)`, as its `Error()` text. -/
def wrap (err : String) (message : String) : String :=
  message ++ ": " ++ err

/-- The method `DockerStrategy.Run`: the calls made on the capabilities, in order, and the
returned error (`none` is nil). `Template` is the method `Templater.Template`, defined
in another file of the package. The result of `RunCommand` is not assigned, so the `err`
tested after it is still the nil left by the pull. -/
def DockerStrategy.Run (Template : Templater → String → Except String String)
    (ds : DockerStrategy) (args : List String) : List Call × Option String :=
  let temp := StrategyCommon.Templater ds.Data.Version ds.Data.ArchMap ds.common.caps
  match Template temp ds.Data.Image with
  | .error e => ([], some (wrap e "unable to template image name"))
  | .ok image =>
    match ds.common.caps.PullDockerImage image with
    | some e => ([.PullDockerImage image], some (wrap e "can't pull image"))
    | none =>
      let err : Option String := none
      let _unused := ds.common.caps.RunCommand "docker" (["run", image] ++ args)
      let calls := [Call.PullDockerImage image, Call.RunCommand "docker" (["run", image] ++ args)]
      match err with
      | some e => (calls, some (wrap e "can't run image"))
      | none => (calls, none)

/-- The method `BinaryStrategy.Run`, in the same form as `DockerStrategy.Run`. -/
def BinaryStrategy.Run (Template : Templater → String → Except String String)
    (bs : BinaryStrategy) (args : List String) : List Call × Option String :=
  let temp := StrategyCommon.Templater bs.Data.Version bs.Data.ArchMap bs.common.caps
  match Template temp bs.Data.BaseUrl with
  | .error e => ([], some (wrap e "unable to template url"))
  | .ok url =>
    match bs.common.caps.DownloadFile url "local/jq" with
    | some e => ([.DownloadFile url "local/jq"], some (wrap e "can't download binary"))
    | none =>
      let err : Option String := none
      let _unused := bs.common.caps.RunCommand "local/jq" args
      let calls := [Call.DownloadFile url "local/jq", Call.RunCommand "local/jq" args]
      match err with
      | some e => (calls, some (wrap e "can't run image"))
      | none => (calls, none)

/-! ## Concrete inputs

Manifests, hosts and capabilities the theorems below are evaluated on. -/

/-- Capabilities whose every call succeeds, on `linux`/`amd64`. -/
def quietCaps : Capabilities :=
  { OS := "linux", Arch := "amd64", MakeExecutable := fun _ => none,
    DownloadFile := fun _ _ => none, PullDockerImage := fun _ => none,
    RunCommand := fun _ _ => none, ExecCommand := fun _ _ => none,
    ExecCommandWithEnv := fun _ _ _ => none }

/-- A host with `HOME=/root` and nothing else set; `Join` puts `/` between the parts. -/
def homeHost : Host :=
  { Getenv := fun k => if k = "HOME" then "/root" else "",
    Join := fun parts => "/".intercalate parts }

/-- A binary block: `base_url` and two version records. -/
def binaryBlock : Dict :=
  [(.str "base_url", .str "https://example.org/jq"),
   (.str "versions", .list [.map [(.str "version", .str "1.6")],
                            .map [(.str "version", .str "1.5")]])]

/-- Two version records of a docker block, the second overriding `image`. -/
def dockerRecords : List Dict :=
  [[(.str "version", .str "1.6")],
   [(.str "version", .str "1.5"), (.str "image", .str "legacy/jq:1.5")]]

/-- A docker block: `image` and the records `dockerRecords`. -/
def dockerBlock : Dict :=
  [(.str "image", .str "example/jq"),
   (.str "versions", .list (dockerRecords.map Value.map))]

/-- Priority configured as `docker, binary` (a blank after the comma); only `binary` in
the manifest. -/
def spacedManifest : Manifest :=
  { Get := fun _ => .ok "docker, binary",
    Data := { Name := "jq", Strategies := [("binary", binaryBlock)] } }

/-- No priority configured (`Get` gives the empty string); `binary` and `docker` in the
manifest. -/
def bothManifest : Manifest :=
  { Get := fun _ => .ok "",
    Data := { Name := "jq", Strategies := [("binary", binaryBlock), ("docker", dockerBlock)] } }

/-- Priority configured as `git`; the manifest holds a `git` block with one version. -/
def gitManifest : Manifest :=
  { Get := fun _ => .ok "git",
    Data := { Name := "jq",
              Strategies := [("git", [(.str "versions",
                .list [.map [(.str "version", .str "1.0")]])])] } }

/-- A host with no environment variable set. -/
def emptyHost : Host :=
  { Getenv := fun _ => "", Join := fun parts => "/".intercalate parts }

/-- No priority configured; a docker block with one version record and no `image`. -/
def bareDockerManifest : Manifest :=
  { Get := fun _ => .ok "",
    Data := { Name := "jq",
              Strategies := [("docker", [(.str "versions",
                .list [.map [(.str "version", .str "1.0")]])])] } }

/-- No priority configured; a docker block that sets `mount_pwd`, with one version record
that sets `interactive`; `docker_conn` is set nowhere. -/
def flaggedManifest : Manifest :=
  { Get := fun _ => .ok "",
    Data := { Name := "jq",
              Strategies := [("docker",
                [(.str "image", .str "example/jq"), (.str "mount_pwd", .bool true),
                 (.str "versions", .list [.map [(.str "version", .str "1.0"),
                                                (.str "interactive", .bool false)]])])] } }

/-- The docker strategy `LoadStrategy` builds from `flaggedManifest` on `homeHost`. -/
def flaggedStrategy : DockerStrategy :=
  { common := { caps := quietCaps,
                ConfigGetter := { systemConfig := "/etc/holenconfig",
                                  userConfig := "/root/.config/holen/config" } },
    Data := { Version := "1.0", Image := "example/jq", MountPwd := true, DockerConn := false,
              Interactive := false, ArchMap := [] } }

/-- A `Templater.Template` that expands every string to itself, as a template without
placeholders does. -/
def verbatimTemplate : Templater → String → Except String String :=
  fun _ s => .ok s

/-- Priority configured as `,docker`; blocks under the empty name and under `docker`. -/
def emptyNameManifest : Manifest :=
  { Get := fun _ => .ok ",docker",
    Data := { Name := "jq", Strategies := [("", dockerBlock), ("docker", dockerBlock)] } }

/-- A binary strategy with the capabilities `quietCaps`: version `1.6`, a URL without
placeholders, no arch map. -/
def plainBinary : BinaryStrategy :=
  { common := { caps := quietCaps,
                ConfigGetter := { systemConfig := "/etc/holenconfig",
                                  userConfig := "/root/.config/holen/config" } },
    Data := { Version := "1.6", BaseUrl := "https://example.org/jq", ArchMap := [] } }

/-! # Theorems -/

/-! ## Error texts -/

theorem ne_of_head_ne {a b : String} (h : a.data.head? ≠ b.data.head?) : a ≠ b :=
  fun e => h (by rw [e])

theorem noStrategy_head (p : String) :
    ("No strategy found, tried " ++ p ++ ".").data.head? = some 'N' := by
  simp [String.data_append]

theorem unableVersion_head (v : String) :
    ("Unable to find version " ++ v).data.head? = some 'U' := by
  simp [String.data_append]

/-! ## Selection of the strategy kind -/

theorem selectLoop_of_find_some (strategies : List (String × Dict)) (names : List String)
    (k : String)
    (h : (names.map TrimSpace).find? (fun n => (smapGet strategies n).isSome) = some k) :
    (selectLoop strategies names).1 = k ∧
      smapGet strategies k = some (selectLoop strategies names).2 := by
  induction names with
  | nil => simp at h
  | cons t rest ih =>
    simp only [List.map_cons, List.find?_cons] at h
    cases hg : smapGet strategies (TrimSpace t) with
    | none =>
      simp only [hg, Option.isSome_none] at h
      simp only [selectLoop, hg]
      exact ih h
    | some blk =>
      simp only [hg, Option.isSome_some, Option.some.injEq] at h
      subst h
      simp [selectLoop, hg]

theorem selectLoop_of_find_none (strategies : List (String × Dict)) (names : List String)
    (h : (names.map TrimSpace).find? (fun n => (smapGet strategies n).isSome) = none) :
    selectLoop strategies names = ("", []) := by
  induction names with
  | nil => rfl
  | cons t rest ih =>
    simp only [List.map_cons, List.find?_cons] at h
    cases hg : smapGet strategies (TrimSpace t) with
    | none =>
      simp only [hg, Option.isSome_none] at h
      simp only [selectLoop, hg]
      exact ih h
    | some blk => simp [hg] at h

/-- Every error text `NewDefaultConfigClient` can return. -/
theorem NewDefaultConfigClient_error (host : Host) (e : String)
    (h : NewDefaultConfigClient host = .error e) :
    e = "$HOME environment variable not found" := by
  unfold NewDefaultConfigClient at h
  simp only at h
  split at h
  · split_ifs at *
    simp_all
  · simp at h

theorem dockerData_error (final : Dict) (image : Value) (arch_map : List (String × String))
    (f : Failure) (h : dockerData final image arch_map = .error f) : f = .panics := by
  unfold dockerData at h
  split at h <;> simp at h
  exact h.symm

theorem binaryData_error (final : Dict) (base_url : Value) (arch_map : List (String × String))
    (f : Failure) (h : binaryData final base_url arch_map = .error f) : f = .panics := by
  unfold binaryData at h
  split at h <;> simp at h
  exact h.symm

theorem archEntries_error (entries : List (Key × Value)) (f : Failure)
    (h : archEntries entries = .error f) : f = .panics := by
  induction entries generalizing f with
  | nil => simp [archEntries] at h
  | cons e rest ih =>
    rcases e with ⟨k, v⟩
    cases k <;> cases v <;> simp only [archEntries] at h <;>
      try (injection h with h; exact h.symm)
    cases hr : archEntries rest with
    | ok out => simp [hr] at h
    | error f2 =>
      simp only [hr] at h
      injection h with h
      rw [← h]
      exact ih _ hr

theorem archMapOf_error (final : Dict) (f : Failure)
    (h : archMapOf final = .error f) : f = .panics := by
  unfold archMapOf at h
  split at h
  · simp at h
  · exact archEntries_error _ _ h
  · simp at h
    exact h.symm

theorem versionLoop_error (ver : String) (versions : List Value) (sel : Option Dict)
    (f : Failure) (h : versionLoop ver versions sel = .error f) : f = .panics := by
  induction versions generalizing sel with
  | nil => simp [versionLoop] at h
  | cons v rest ih =>
    cases v <;> simp only [versionLoop] at h <;> try (simp at h; exact h.symm)
    split_ifs at h
    · exact ih _ h
    · exact ih _ h

/-- Every error text `buildStrategy` can return. -/
theorem buildStrategy_error (common : StrategyCommon) (kind : String) (final : Dict)
    (arch_map : List (String × String)) (msg : String)
    (h : buildStrategy common kind final arch_map = .error (.error msg)) :
    msg = "At least 'image' needed for docker strategy to work" ∨
    msg = "At least 'base_url' needed for binary strategy to work" := by
  unfold buildStrategy at h
  split_ifs at h
  · split at h
    · left; simpa using h.symm
    · split at h
      · simp at h
      · rename_i f hf
        rw [dockerData_error _ _ _ _ hf] at h
        simp at h
  · split at h
    · right; simpa using h.symm
    · split at h
      · simp at h
      · rename_i f hf
        rw [binaryData_error _ _ _ _ hf] at h
        simp at h

/-- Every error text `finishStrategy` can return. -/
theorem finishStrategy_error (host : Host) (caps : Capabilities) (kind : String) (final : Dict)
    (msg : String) (h : finishStrategy host caps kind final = .error (.error msg)) :
    msg = "$HOME environment variable not found" ∨
    msg = "At least 'image' needed for docker strategy to work" ∨
    msg = "At least 'base_url' needed for binary strategy to work" := by
  unfold finishStrategy at h
  split at h
  · rename_i f hf
    rw [archMapOf_error _ _ hf] at h
    simp at h
  · split at h
    · rename_i e he
      left
      have := NewDefaultConfigClient_error host e he
      simp at h
      rw [← h, this]
    · right
      exact buildStrategy_error _ _ _ _ _ h

/-- Every error text `selectVersion` can return. -/
theorem selectVersion_error (ver : String) (versions : List Value) (msg : String)
    (h : selectVersion ver versions = .error (.error msg)) :
    msg = "Unable to find version " ++ ver := by
  unfold selectVersion at h
  split_ifs at h
  · split at h <;> simp at h
    · rename_i f hf
      rw [versionLoop_error _ _ _ _ hf] at h
      simp at h
    · exact h.symm
  · split at h <;> simp at h

/-- Every error `LoadStrategy` can return, by the stage that returns it. -/
theorem LoadStrategy_error_cases (host : Host) (caps : Capabilities) (m : Manifest)
    (utility : NameVer) (msg : String)
    (h : (LoadStrategy host caps m utility).1 = .error (.error msg)) :
    ((selectStrategy m).1 = "" ∧ msg = "No strategy found, tried " ++ priorityOf m ++ ".") ∨
    ((selectStrategy m).1 ≠ "" ∧
      (msg = "Unable to find version " ++ utility.Version ∨
       msg = "$HOME environment variable not found" ∨
       msg = "At least 'image' needed for docker strategy to work" ∨
       msg = "At least 'base_url' needed for binary strategy to work")) := by
  unfold LoadStrategy at h
  simp only at h
  split_ifs at h with hsel
  · left
    refine ⟨hsel, ?_⟩
    simpa using h.symm
  · right
    refine ⟨hsel, ?_⟩
    split at h
    · split at h
      · rename_i f hf
        injection h with h
        subst h
        left
        exact selectVersion_error _ _ _ hf
      · right
        exact finishStrategy_error _ _ _ _ _ h
    · simp at h

/-! ## C1: strategy kind by priority -/

/-- C1, as stated, fails: with `strategy.priority` set to `docker, binary` and a manifest
holding only `binary`, no comma-separated name of the priority string is a key of
`Strategies` (the second name is `" binary"`, with its leading blank), yet `LoadStrategy`
selects `binary` and returns a binary strategy: names are trimmed before the lookup. -/
theorem C1_counterexample :
    priorityOf spacedManifest = "docker, binary" ∧
    (Split (priorityOf spacedManifest) ',').find?
      (fun n => (smapGet spacedManifest.Data.Strategies n).isSome) = none ∧
    (selectStrategy spacedManifest).1 = "binary" ∧
    ∃ b, (LoadStrategy homeHost quietCaps spacedManifest { Name := "jq", Version := "" }).1
      = .ok (some (.binary b)) :=
  ⟨by decide, by decide, by decide, ⟨_, rfl⟩⟩

/-- C1, amended: the priority string is the configured `strategy.priority` when `Get`
succeeds with a non-empty string and `docker,binary` otherwise; with its comma-separated
names trimmed of surrounding white space, whenever the first trimmed name that is a key of
`Strategies` is non-empty, it is the selected kind, the selected block is the one stored
under it, and `LoadStrategy` does not return the "No strategy found" error; when no trimmed
name is a key, `LoadStrategy` returns that error, naming the priority string. -/
theorem C1_priority_selection (host : Host) (caps : Capabilities) (m : Manifest)
    (utility : NameVer) :
    (∀ s, m.Get "strategy.priority" = .ok s → s ≠ "" → priorityOf m = s) ∧
    ((∀ s, m.Get "strategy.priority" = .ok s → s = "") → priorityOf m = "docker,binary") ∧
    (∀ k, ((Split (priorityOf m) ',').map TrimSpace).find?
          (fun n => (smapGet m.Data.Strategies n).isSome) = some k → k ≠ "" →
      (selectStrategy m).1 = k ∧
      smapGet m.Data.Strategies k = some (selectStrategy m).2 ∧
      (LoadStrategy host caps m utility).1 ≠
        .error (.error ("No strategy found, tried " ++ priorityOf m ++ "."))) ∧
    (((Split (priorityOf m) ',').map TrimSpace).find?
          (fun n => (smapGet m.Data.Strategies n).isSome) = none →
      (LoadStrategy host caps m utility).1 =
        .error (.error ("No strategy found, tried " ++ priorityOf m ++ "."))) := by
  refine ⟨?_, ?_, ?_, ?_⟩
  · intro s hs hne
    simp [priorityOf, hs, hne]
  · intro h
    unfold priorityOf
    split
    · rename_i s hs
      simp [h s hs]
    · rfl
  · intro k hk hne
    obtain ⟨h1, h2⟩ := selectLoop_of_find_some _ _ _ hk
    refine ⟨h1, h2, ?_⟩
    intro herr
    have hsel : (selectStrategy m).1 ≠ "" := by
      show (selectLoop m.Data.Strategies (Split (priorityOf m) ',')).1 ≠ ""
      rw [h1]; exact hne
    rcases LoadStrategy_error_cases host caps m utility _ herr with ⟨h0, _⟩ | ⟨_, hmsg⟩
    · exact hsel h0
    · have hN := noStrategy_head (priorityOf m)
      rcases hmsg with h | h | h | h <;> rw [h] at hN
      · rw [unableVersion_head] at hN
        exact absurd hN (by decide)
      · exact absurd hN (by decide)
      · exact absurd hN (by decide)
      · exact absurd hN (by decide)
  · intro hnone
    have h := selectLoop_of_find_none _ _ hnone
    have hsel : (selectStrategy m).1 = "" := by
      show (selectLoop m.Data.Strategies (Split (priorityOf m) ',')).1 = ""
      rw [h]
    unfold LoadStrategy
    simp [hsel]

/-- C1, witness: configuration unset, `docker` and `binary` both present: `docker` is
selected. -/
theorem C1_priority_selection_witness :
    (selectStrategy bothManifest).1 = "docker" ∧
    smapGet bothManifest.Data.Strategies "docker" = some (selectStrategy bothManifest).2 ∧
    (LoadStrategy homeHost quietCaps bothManifest { Name := "jq", Version := "" }).1 ≠
      .error (.error ("No strategy found, tried " ++ priorityOf bothManifest ++ ".")) :=
  (C1_priority_selection homeHost quietCaps bothManifest { Name := "jq", Version := "" }).2.2.1
    "docker" (by decide) (by decide)

theorem Dict.get_filter (q : Key → Bool) (m : Dict) (k : Key) :
    Dict.get (m.filter (fun e => q e.1)) k = if q k then Dict.get m k else none := by
  induction m with
  | nil => simp [Dict.get]
  | cons e rest ih =>
    rcases e with ⟨k', v⟩
    by_cases hq : q k' = true
    · rw [List.filter_cons_of_pos (by simpa using hq)]
      by_cases hk : k' = k
      · subst hk
        simp [Dict.get, hq]
      · simp only [Dict.get, hk, if_false]
        exact ih
    · rw [List.filter_cons_of_neg (by simpa using hq)]
      by_cases hk : k' = k
      · subst hk
        rw [ih]
        simp [hq]
      · simp only [Dict.get, hk, if_false]
        exact ih

theorem Dict.get_append (a b : Dict) (k : Key) :
    Dict.get (a ++ b) k = match Dict.get a k with
      | some v => some v
      | none => Dict.get b k := by
  induction a with
  | nil => simp [Dict.get]
  | cons e rest ih =>
    rcases e with ⟨k', v⟩
    by_cases hk : k' = k
    · simp [Dict.get, hk]
    · simp only [List.cons_append, Dict.get, hk, if_false]
      exact ih

/-- Lookup in the merged map: the second map wins, the first fills the gaps. -/
theorem get_mergeMaps (m1 m2 : Dict) (k : Key) :
    Dict.get (mergeMaps m1 m2) k = match Dict.get m2 k with
      | some v => some v
      | none => Dict.get m1 k := by
  unfold mergeMaps
  rw [Dict.get_append]
  cases h : Dict.get m2 k with
  | some v => rfl
  | none =>
    simp only
    rw [Dict.get_filter (fun k' => (Dict.get m2 k').isNone)]
    simp [h]

theorem Dict.get_delete_ne (m : Dict) (k k' : Key) (h : k ≠ k') :
    Dict.get (Dict.delete m k') k = Dict.get m k := by
  unfold Dict.delete
  rw [Dict.get_filter (fun x => decide (x ≠ k'))]
  simp [h]

theorem Dict.get_delete_self (m : Dict) (k : Key) :
    Dict.get (Dict.delete m k) k = none := by
  unfold Dict.delete
  rw [Dict.get_filter (fun x => decide (x ≠ k))]
  simp

theorem eqString_iff (o : Option Value) (v : String) :
    eqString o v = true ↔ o = some (.str v) := by
  cases o with
  | none => simp [eqString]
  | some x => cases x <;> simp [eqString]

/-- The version loop over a list of records: it never panics, and it returns either the
accumulator, when no record matches, or a matching record of the list. -/
theorem versionLoop_records (ver : String) (records : List Dict) (sel : Option Dict) :
    (versionLoop ver (records.map Value.map) sel = .ok sel ∧
      ∀ r ∈ records, Dict.get r (.str "version") ≠ some (.str ver)) ∨
    (∃ V ∈ records, versionLoop ver (records.map Value.map) sel = .ok (some V) ∧
      Dict.get V (.str "version") = some (.str ver)) := by
  induction records generalizing sel with
  | nil => left; simp [versionLoop]
  | cons r rest ih =>
    simp only [List.map_cons, versionLoop]
    by_cases hm : eqString (Dict.get r (.str "version")) ver = true
    · simp only [hm, if_true]
      right
      rcases ih (some r) with ⟨h1, _⟩ | ⟨V, hV, h1, h2⟩
      · exact ⟨r, List.mem_cons_self _ _, h1, (eqString_iff _ _).1 hm⟩
      · exact ⟨V, List.mem_cons_of_mem _ hV, h1, h2⟩
    · simp only [hm]
      rcases ih sel with ⟨h1, h2⟩ | ⟨V, hV, h1, h2⟩
      · left
        refine ⟨h1, ?_⟩
        intro x hx
        rcases List.mem_cons.1 hx with rfl | hx
        · exact fun e => hm ((eqString_iff _ _).2 e)
        · exact h2 x hx
      · right
        exact ⟨V, List.mem_cons_of_mem _ hV, h1, h2⟩


/-! ## Stages of `LoadStrategy` -/

/-- `LoadStrategy` once the kind and the `versions` list are known: the version selection
decides between an early failure and the final stage. -/
theorem LoadStrategy_of_versions (host : Host) (caps : Capabilities) (m : Manifest)
    (utility : NameVer) (versions : List Value)
    (hsel : (selectStrategy m).1 ≠ "")
    (hver : Dict.get (selectStrategy m).2 (.str "versions") = some (.list versions)) :
    (LoadStrategy host caps m utility).1 =
      match selectVersion utility.Version versions with
      | .error f => .error f
      | .ok V => finishStrategy host caps (selectStrategy m).1
          (mergeMaps (Dict.delete (selectStrategy m).2 (.str "versions")) V) := by
  unfold LoadStrategy
  simp only [hsel, if_false, hver]
  split <;> rfl

/-- A call of `LoadStrategy` that returns without error went through every stage. -/
theorem LoadStrategy_ok_inv (host : Host) (caps : Capabilities) (m : Manifest)
    (utility : NameVer) (r : Option Strategy)
    (h : (LoadStrategy host caps m utility).1 = .ok r) :
    ∃ versions V, (selectStrategy m).1 ≠ "" ∧
      Dict.get (selectStrategy m).2 (.str "versions") = some (.list versions) ∧
      selectVersion utility.Version versions = .ok V ∧
      finishStrategy host caps (selectStrategy m).1
        (mergeMaps (Dict.delete (selectStrategy m).2 (.str "versions")) V) = .ok r := by
  unfold LoadStrategy at h
  simp only at h
  split_ifs at h with hsel
  split at h
  · rename_i versions hver
    split at h
    · simp at h
    · rename_i V hV
      exact ⟨versions, V, hsel, hver, hV, h⟩
  · simp at h

theorem finishStrategy_ok_inv (host : Host) (caps : Capabilities) (kind : String)
    (final : Dict) (r : Option Strategy)
    (h : finishStrategy host caps kind final = .ok r) :
    ∃ arch_map conf, archMapOf final = .ok arch_map ∧ NewDefaultConfigClient host = .ok conf ∧
      buildStrategy { caps := caps, ConfigGetter := conf } kind final arch_map = .ok r := by
  unfold finishStrategy at h
  split at h
  · simp at h
  · rename_i arch_map ha
    split at h
    · simp at h
    · rename_i conf hc
      exact ⟨arch_map, conf, ha, hc, h⟩

theorem dockerData_ok_inv (final : Dict) (image : Value) (arch_map : List (String × String))
    (d : DockerData) (h : dockerData final image arch_map = .ok d) :
    asString (Dict.get final (.str "version")) = .ok d.Version ∧
    asString (some image) = .ok d.Image ∧
    andBool (Dict.get final (.str "mount_pwd")) = .ok d.MountPwd ∧
    andBool (Dict.get final (.str "docker_conn")) = .ok d.DockerConn ∧
    orBool (Dict.get final (.str "interactive")) = .ok d.Interactive ∧
    d.ArchMap = arch_map := by
  unfold dockerData at h
  split at h
  · rename_i h1 h2 h3 h4 h5
    injection h with h
    subst h
    exact ⟨h1, h2, h3, h4, h5, rfl⟩
  · simp at h

theorem binaryData_ok_inv (final : Dict) (base_url : Value) (arch_map : List (String × String))
    (d : BinaryData) (h : binaryData final base_url arch_map = .ok d) :
    asString (Dict.get final (.str "version")) = .ok d.Version ∧
    asString (some base_url) = .ok d.BaseUrl ∧
    d.ArchMap = arch_map := by
  unfold binaryData at h
  split at h
  · rename_i h1 h2
    injection h with h
    subst h
    exact ⟨h1, h2, rfl⟩
  · simp at h

theorem asString_ok_iff (o : Option Value) (s : String) :
    asString o = .ok s ↔ o = some (.str s) := by
  cases o with
  | none => simp [asString]
  | some x => cases x <;> simp [asString]

/-- A strategy `buildStrategy` returns is a docker one built by `dockerData` from a present
`image`, for the kind `docker`, or a binary one built by `binaryData` from a present
`base_url`, for the kind `binary`. -/
theorem buildStrategy_ok_inv (common : StrategyCommon) (kind : String) (final : Dict)
    (arch_map : List (String × String)) (s : Strategy)
    (h : buildStrategy common kind final arch_map = .ok (some s)) :
    (kind = "docker" ∧ ∃ image d, Dict.get final (.str "image") = some image ∧
        dockerData final image arch_map = .ok d ∧ s = .docker { common := common, Data := d }) ∨
    (kind = "binary" ∧ ∃ base_url d, Dict.get final (.str "base_url") = some base_url ∧
        binaryData final base_url arch_map = .ok d ∧
        s = .binary { common := common, Data := d }) := by
  unfold buildStrategy at h
  split_ifs at h with hd hb
  · left
    refine ⟨hd, ?_⟩
    split at h
    · simp at h
    · rename_i image hi
      split at h
      · rename_i d hdd
        simp only [Except.ok.injEq, Option.some.injEq] at h
        exact ⟨image, d, hi, hdd, h.symm⟩
      · simp at h
  · right
    refine ⟨hb, ?_⟩
    split at h
    · simp at h
    · rename_i url hi
      split at h
      · rename_i d hdd
        simp only [Except.ok.injEq, Option.some.injEq] at h
        exact ⟨url, d, hi, hdd, h.symm⟩
      · simp at h
  · simp at h

/-- The descriptor's `Version` is the string stored under `version` in the merged map. -/
theorem buildStrategy_ok_version (common : StrategyCommon) (kind : String) (final : Dict)
    (arch_map : List (String × String)) (s : Strategy)
    (h : buildStrategy common kind final arch_map = .ok (some s)) :
    Dict.get final (.str "version") = some (.str s.Version) := by
  rcases buildStrategy_ok_inv _ _ _ _ _ h with ⟨_, image, d, _, hd, rfl⟩ | ⟨_, url, d, _, hd, rfl⟩
  · exact (asString_ok_iff _ _).1 (dockerData_ok_inv _ _ _ _ hd).1
  · exact (asString_ok_iff _ _).1 (binaryData_ok_inv _ _ _ _ hd).1

/-! ## C2: a requested version -/

/-- C2: for a selected block whose `versions` is a list of version records, and a
non-empty requested version `v`, `LoadStrategy` returns the error
"Unable to find version v" exactly when no record of the list has `version` equal to the
string `v`; otherwise the version selection returns a record of the list whose `version`
is `v`; and every strategy `LoadStrategy` returns has `Version` equal to `v`. -/
theorem C2_requested_version (host : Host) (caps : Capabilities) (m : Manifest)
    (utility : NameVer) (records : List Dict)
    (hsel : (selectStrategy m).1 ≠ "")
    (hver : Dict.get (selectStrategy m).2 (.str "versions")
      = some (.list (records.map Value.map)))
    (hv : utility.Version ≠ "") :
    ((LoadStrategy host caps m utility).1
        = .error (.error ("Unable to find version " ++ utility.Version)) ↔
      ∀ r ∈ records, Dict.get r (.str "version") ≠ some (.str utility.Version)) ∧
    ((∃ r ∈ records, Dict.get r (.str "version") = some (.str utility.Version)) →
      ∃ V ∈ records, selectVersion utility.Version (records.map Value.map) = .ok V ∧
        Dict.get V (.str "version") = some (.str utility.Version)) ∧
    (∀ s, (LoadStrategy host caps m utility).1 = .ok (some s) →
      s.Version = utility.Version) := by
  have hL := LoadStrategy_of_versions host caps m utility _ hsel hver
  rcases versionLoop_records utility.Version records none with ⟨h1, h2⟩ | ⟨V, hV, h1, h2⟩
  · have hS : selectVersion utility.Version (records.map Value.map)
        = .error (.error ("Unable to find version " ++ utility.Version)) := by
      simp [selectVersion, hv, h1]
    rw [hS] at hL
    refine ⟨⟨fun _ => h2, fun _ => hL⟩, ?_, ?_⟩
    · rintro ⟨r, hr, hr2⟩
      exact absurd hr2 (h2 r hr)
    · intro s hs
      rw [hL] at hs
      simp at hs
  · have hS : selectVersion utility.Version (records.map Value.map) = .ok V := by
      simp [selectVersion, hv, h1]
    rw [hS] at hL
    simp only at hL
    refine ⟨⟨?_, fun hall => absurd h2 (hall V hV)⟩, fun _ => ⟨V, hV, hS, h2⟩, ?_⟩
    · intro herr
      rw [hL] at herr
      have hU := unableVersion_head utility.Version
      rcases finishStrategy_error _ _ _ _ _ herr with h | h | h <;> rw [h] at hU <;>
        exact absurd hU (by decide)
    · intro s hs
      rw [hL] at hs
      obtain ⟨arch_map, conf, _, _, hb⟩ := finishStrategy_ok_inv _ _ _ _ _ hs
      have hg := buildStrategy_ok_version _ _ _ _ _ hb
      rw [get_mergeMaps, h2] at hg
      simp only [Option.some.injEq, Value.str.injEq] at hg
      exact hg.symm

/-- C2, witness: version `1.5` requested from the docker block of `bothManifest`. -/
theorem C2_requested_version_witness :
    ((LoadStrategy homeHost quietCaps bothManifest { Name := "jq", Version := "1.5" }).1
        = .error (.error ("Unable to find version " ++ "1.5")) ↔
      ∀ r ∈ dockerRecords, Dict.get r (.str "version") ≠ some (.str "1.5")) ∧
    ((∃ r ∈ dockerRecords, Dict.get r (.str "version") = some (.str "1.5")) →
      ∃ V ∈ dockerRecords, selectVersion "1.5" (dockerRecords.map Value.map) = .ok V ∧
        Dict.get V (.str "version") = some (.str "1.5")) ∧
    (∀ s, (LoadStrategy homeHost quietCaps bothManifest { Name := "jq", Version := "1.5" }).1
        = .ok (some s) → s.Version = "1.5") :=
  C2_requested_version homeHost quietCaps bothManifest { Name := "jq", Version := "1.5" }
    dockerRecords (by decide) rfl (by decide)

/-! ## C3: the merged map -/

/-- C3: in the map merged from a block `B` without `versions` and a version record `V`,
every key `k` other than `versions` reads as `V[k]` when `V` has `k` and as `B[k]`
otherwise; and a strategy `LoadStrategy` returns was built from the selected block `B`
and a selected record `V` such that a docker strategy has as `Image` the string under
`image` in `V` when `V` has that key and in `B` otherwise, and a binary strategy likewise
for `BaseUrl` and `base_url`. -/
theorem C3_merge_precedence (host : Host) (caps : Capabilities) (m : Manifest)
    (utility : NameVer) :
    (∀ (B V : Dict) (k : Key), k ≠ .str "versions" →
      Dict.get (mergeMaps (Dict.delete B (.str "versions")) V) k =
        match Dict.get V k with
        | some v => some v
        | none => Dict.get B k) ∧
    (∀ s, (LoadStrategy host caps m utility).1 = .ok (some s) →
      ∃ versions V,
        Dict.get (selectStrategy m).2 (.str "versions") = some (.list versions) ∧
        selectVersion utility.Version versions = .ok V ∧
        match s with
        | .docker d =>
          (match Dict.get V (.str "image") with
            | some v => some v
            | none => Dict.get (selectStrategy m).2 (.str "image")) = some (.str d.Data.Image)
        | .binary b =>
          (match Dict.get V (.str "base_url") with
            | some v => some v
            | none => Dict.get (selectStrategy m).2 (.str "base_url"))
            = some (.str b.Data.BaseUrl)) := by
  have key : ∀ (B V : Dict) (k : Key), k ≠ .str "versions" →
      Dict.get (mergeMaps (Dict.delete B (.str "versions")) V) k =
        match Dict.get V k with
        | some v => some v
        | none => Dict.get B k := by
    intro B V k hk
    rw [get_mergeMaps, Dict.get_delete_ne _ _ _ hk]
  refine ⟨key, ?_⟩
  intro s hs
  obtain ⟨versions, V, _, hver, hV, hf⟩ := LoadStrategy_ok_inv _ _ _ _ _ hs
  obtain ⟨arch_map, conf, _, _, hb⟩ := finishStrategy_ok_inv _ _ _ _ _ hf
  refine ⟨versions, V, hver, hV, ?_⟩
  rcases buildStrategy_ok_inv _ _ _ _ _ hb with
    ⟨_, image, d, hi, hd, rfl⟩ | ⟨_, url, d, hi, hd, rfl⟩
  · have h2 := (asString_ok_iff _ _).1 (dockerData_ok_inv _ _ _ _ hd).2.1
    rw [key _ _ _ (by decide)] at hi
    simp only
    rw [hi, h2]
  · have h2 := (asString_ok_iff _ _).1 (binaryData_ok_inv _ _ _ _ hd).2.1
    rw [key _ _ _ (by decide)] at hi
    simp only
    rw [hi, h2]

/-- C3, witness: merging the docker block of `bothManifest` with its record for `1.5`,
which overrides `image`, reads `image` from the record, and so does the strategy
`LoadStrategy` returns for that version. -/
theorem C3_merge_precedence_witness :
    Dict.get (mergeMaps (Dict.delete dockerBlock (.str "versions"))
      [(.str "version", .str "1.5"), (.str "image", .str "legacy/jq:1.5")]) (.str "image")
      = some (.str "legacy/jq:1.5") ∧
    ∃ versions V,
      Dict.get (selectStrategy bothManifest).2 (.str "versions") = some (.list versions) ∧
      selectVersion "1.5" versions = .ok V ∧
      (match Dict.get V (.str "image") with
        | some v => some v
        | none => Dict.get (selectStrategy bothManifest).2 (.str "image"))
        = some (.str "legacy/jq:1.5") :=
  ⟨(C3_merge_precedence homeHost quietCaps bothManifest { Name := "jq", Version := "1.5" }).1
      dockerBlock [(.str "version", .str "1.5"), (.str "image", .str "legacy/jq:1.5")]
      (.str "image") (by decide),
   (C3_merge_precedence homeHost quietCaps bothManifest { Name := "jq", Version := "1.5" }).2
      _ rfl⟩

/-! ## C4: the manifest after the call -/

/-- C4 fails on the code: on `bothManifest` with no version requested, `LoadStrategy`
returns a docker strategy, but the docker block of the manifest, which carried `versions`
before the call, has no `versions` after it, and a second call on the same manifest with
the same request panics instead of returning the same result. -/
theorem C4_manifest_mutated :
    (∃ d, (LoadStrategy homeHost quietCaps bothManifest { Name := "jq", Version := "" }).1
      = .ok (some (.docker d))) ∧
    (smapGet bothManifest.Data.Strategies "docker").bind
        (fun blk => Dict.get blk (.str "versions"))
      = some (.list (dockerRecords.map Value.map)) ∧
    (smapGet (LoadStrategy homeHost quietCaps bothManifest
        { Name := "jq", Version := "" }).2.Data.Strategies "docker").bind
        (fun blk => Dict.get blk (.str "versions"))
      = none ∧
    (LoadStrategy homeHost quietCaps
        (LoadStrategy homeHost quietCaps bothManifest { Name := "jq", Version := "" }).2
        { Name := "jq", Version := "" }).1
      = .error .panics :=
  ⟨⟨_, rfl⟩, rfl, rfl, rfl⟩

/-! ## C5: a kind that is neither docker nor binary -/

/-- C5 fails on the code: with `strategy.priority` set to `git` and a manifest holding a
`git` block, `LoadStrategy` returns a nil error together with the nil strategy. -/
theorem C5_nil_strategy_without_error :
    (selectStrategy gitManifest).1 = "git" ∧
    (LoadStrategy homeHost quietCaps gitManifest { Name := "jq", Version := "" }).1
      = .ok none :=
  ⟨by decide, rfl⟩

/-! ## C6: required fields -/

/-- A key other than `versions` is missing from the merged map exactly when it is missing
from both the block and the version record. -/
theorem get_merged_none_iff (B V : Dict) (k : Key) (hk : k ≠ .str "versions") :
    Dict.get (mergeMaps (Dict.delete B (.str "versions")) V) k = none ↔
      Dict.get B k = none ∧ Dict.get V k = none := by
  rw [get_mergeMaps, Dict.get_delete_ne _ _ _ hk]
  cases Dict.get V k <;> simp

theorem buildStrategy_docker_error_iff (common : StrategyCommon) (final : Dict)
    (arch_map : List (String × String)) :
    buildStrategy common "docker" final arch_map
        = .error (.error "At least 'image' needed for docker strategy to work") ↔
      Dict.get final (.str "image") = none := by
  simp only [buildStrategy, if_true]
  cases hi : Dict.get final (.str "image") with
  | none => simp
  | some image =>
    simp only
    cases hd : dockerData final image arch_map with
    | ok d => simp
    | error f =>
      rw [dockerData_error _ _ _ _ hd]
      simp

theorem buildStrategy_binary_error_iff (common : StrategyCommon) (final : Dict)
    (arch_map : List (String × String)) :
    buildStrategy common "binary" final arch_map
        = .error (.error "At least 'base_url' needed for binary strategy to work") ↔
      Dict.get final (.str "base_url") = none := by
  have hne : ¬ ("binary" = "docker") := by decide
  simp only [buildStrategy, hne, if_false, if_true]
  cases hi : Dict.get final (.str "base_url") with
  | none => simp
  | some url =>
    simp only
    cases hd : binaryData final url arch_map with
    | ok d => simp
    | error f =>
      rw [binaryData_error _ _ _ _ hd]
      simp

/-- The final stage returns a given error text of `buildStrategy` exactly when the arch
map converts, the configuration client is built, and `buildStrategy` returns it; the text
must differ from the one `NewDefaultConfigClient` fails with. -/
theorem finishStrategy_error_iff (host : Host) (caps : Capabilities) (kind : String)
    (final : Dict) (msg : String) (hmsg : msg ≠ "$HOME environment variable not found") :
    finishStrategy host caps kind final = .error (.error msg) ↔
      ∃ arch_map conf, archMapOf final = .ok arch_map ∧
        NewDefaultConfigClient host = .ok conf ∧
        buildStrategy { caps := caps, ConfigGetter := conf } kind final arch_map
          = .error (.error msg) := by
  unfold finishStrategy
  cases ha : archMapOf final with
  | error f =>
    rw [archMapOf_error _ _ ha]
    simp
  | ok arch_map =>
    cases hc : NewDefaultConfigClient host with
    | error e =>
      rw [NewDefaultConfigClient_error _ _ hc]
      simp only [Except.error.injEq, Failure.error.injEq]
      constructor
      · intro h
        exact absurd h.symm hmsg
      · rintro ⟨_, _, _, h, _⟩
        simp at h
    | ok conf =>
      simp only
      constructor
      · intro h
        exact ⟨arch_map, conf, rfl, rfl, h⟩
      · rintro ⟨am, c, h1, h2, h3⟩
        simp only [Except.ok.injEq] at h1 h2
        subst h1 h2
        exact h3


theorem buildStrategy_docker_error_msg (common : StrategyCommon) (final : Dict)
    (arch_map : List (String × String)) (msg : String)
    (h : buildStrategy common "docker" final arch_map = .error (.error msg)) :
    msg = "At least 'image' needed for docker strategy to work" := by
  simp only [buildStrategy, if_true] at h
  split at h
  · simpa using h.symm
  · split at h
    · simp at h
    · rename_i f hf
      rw [dockerData_error _ _ _ _ hf] at h
      simp at h

theorem buildStrategy_binary_error_msg (common : StrategyCommon) (final : Dict)
    (arch_map : List (String × String)) (msg : String)
    (h : buildStrategy common "binary" final arch_map = .error (.error msg)) :
    msg = "At least 'base_url' needed for binary strategy to work" := by
  have hne : ¬ ("binary" = "docker") := by decide
  simp only [buildStrategy, hne, if_false, if_true] at h
  split at h
  · simpa using h.symm
  · split at h
    · simp at h
    · rename_i f hf
      rw [binaryData_error _ _ _ _ hf] at h
      simp at h

/-- C6, as stated, fails: on a host with neither `XDG_CONFIG_HOME` nor `HOME` set, a docker
block and version record that both lack `image` give the error of
`NewDefaultConfigClient`, which is built before the required field is checked, and not
the error naming `image`. -/
theorem C6_counterexample :
    (selectStrategy bareDockerManifest).1 = "docker" ∧
    Dict.get (selectStrategy bareDockerManifest).2 (.str "image") = none ∧
    Dict.get (selectStrategy bareDockerManifest).2 (.str "versions")
      = some (.list [.map [(.str "version", .str "1.0")]]) ∧
    selectVersion "" [.map [(.str "version", .str "1.0")]]
      = .ok [(.str "version", .str "1.0")] ∧
    Dict.get [(.str "version", .str "1.0")] (.str "image") = none ∧
    (LoadStrategy emptyHost quietCaps bareDockerManifest { Name := "jq", Version := "" }).1
      = .error (.error "$HOME environment variable not found") :=
  ⟨by decide, rfl, rfl, rfl, rfl, rfl⟩

/-- C6, amended: with a block `B` selected and a version record `V` selected from its
`versions`, when the kind is `docker`, `LoadStrategy` returns the error naming `image`
exactly when `image` is a key of neither `B` nor `V` and the two steps that come before
the check succeed (the `arch_map` of the merged map converts to a string map and
`NewDefaultConfigClient` returns a client), and it never returns the error naming
`base_url`; when the kind is `binary`, the same holds with `base_url` and `image`
exchanged. -/
theorem C6_required_field (host : Host) (caps : Capabilities) (m : Manifest)
    (utility : NameVer) (versions : List Value) (V : Dict)
    (hver : Dict.get (selectStrategy m).2 (.str "versions") = some (.list versions))
    (hV : selectVersion utility.Version versions = .ok V) :
    ((selectStrategy m).1 = "docker" →
      ((LoadStrategy host caps m utility).1
          = .error (.error "At least 'image' needed for docker strategy to work") ↔
        (Dict.get (selectStrategy m).2 (.str "image") = none ∧
          Dict.get V (.str "image") = none) ∧
        (∃ arch_map, archMapOf
          (mergeMaps (Dict.delete (selectStrategy m).2 (.str "versions")) V) = .ok arch_map) ∧
        (∃ conf, NewDefaultConfigClient host = .ok conf)) ∧
      (LoadStrategy host caps m utility).1
        ≠ .error (.error "At least 'base_url' needed for binary strategy to work")) ∧
    ((selectStrategy m).1 = "binary" →
      ((LoadStrategy host caps m utility).1
          = .error (.error "At least 'base_url' needed for binary strategy to work") ↔
        (Dict.get (selectStrategy m).2 (.str "base_url") = none ∧
          Dict.get V (.str "base_url") = none) ∧
        (∃ arch_map, archMapOf
          (mergeMaps (Dict.delete (selectStrategy m).2 (.str "versions")) V) = .ok arch_map) ∧
        (∃ conf, NewDefaultConfigClient host = .ok conf)) ∧
      (LoadStrategy host caps m utility).1
        ≠ .error (.error "At least 'image' needed for docker strategy to work")) := by
  constructor
  · intro hk
    have hsel : (selectStrategy m).1 ≠ "" := by rw [hk]; decide
    have hL := LoadStrategy_of_versions host caps m utility versions hsel hver
    rw [hV] at hL
    simp only at hL
    rw [hL, hk]
    constructor
    · rw [finishStrategy_error_iff _ _ _ _ _ (by decide)]
      constructor
      · rintro ⟨am, conf, ha, hc, hb⟩
        rw [buildStrategy_docker_error_iff, get_merged_none_iff _ _ _ (by decide)] at hb
        exact ⟨hb, ⟨am, ha⟩, ⟨conf, hc⟩⟩
      · rintro ⟨hb, ⟨am, ha⟩, ⟨conf, hc⟩⟩
        refine ⟨am, conf, ha, hc, ?_⟩
        rw [buildStrategy_docker_error_iff, get_merged_none_iff _ _ _ (by decide)]
        exact hb
    · intro herr
      rw [finishStrategy_error_iff _ _ _ _ _ (by decide)] at herr
      obtain ⟨am, conf, _, _, hb⟩ := herr
      exact absurd (buildStrategy_docker_error_msg _ _ _ _ hb) (by decide)
  · intro hk
    have hsel : (selectStrategy m).1 ≠ "" := by rw [hk]; decide
    have hL := LoadStrategy_of_versions host caps m utility versions hsel hver
    rw [hV] at hL
    simp only at hL
    rw [hL, hk]
    constructor
    · rw [finishStrategy_error_iff _ _ _ _ _ (by decide)]
      constructor
      · rintro ⟨am, conf, ha, hc, hb⟩
        rw [buildStrategy_binary_error_iff, get_merged_none_iff _ _ _ (by decide)] at hb
        exact ⟨hb, ⟨am, ha⟩, ⟨conf, hc⟩⟩
      · rintro ⟨hb, ⟨am, ha⟩, ⟨conf, hc⟩⟩
        refine ⟨am, conf, ha, hc, ?_⟩
        rw [buildStrategy_binary_error_iff, get_merged_none_iff _ _ _ (by decide)]
        exact hb
    · intro herr
      rw [finishStrategy_error_iff _ _ _ _ _ (by decide)] at herr
      obtain ⟨am, conf, _, _, hb⟩ := herr
      exact absurd (buildStrategy_binary_error_msg _ _ _ _ hb) (by decide)

/-- C6, witness: on a host with `HOME` set, the docker block without `image` of
`bareDockerManifest` gives the error naming `image`. -/
theorem C6_required_field_witness :
    (LoadStrategy homeHost quietCaps bareDockerManifest { Name := "jq", Version := "" }).1
      = .error (.error "At least 'image' needed for docker strategy to work") :=
  ((C6_required_field homeHost quietCaps bareDockerManifest { Name := "jq", Version := "" }
      [.map [(.str "version", .str "1.0")]] [(.str "version", .str "1.0")] rfl rfl).1
    (by decide)).1.2 ⟨⟨rfl, rfl⟩, ⟨_, rfl⟩, ⟨_, rfl⟩⟩

/-! ## C7: no version requested -/

/-- C7: when no version is requested and the selected block's `versions` list starts with
a record whose `version` is the string `x`, whatever follows it, the version selection
returns that first record, `LoadStrategy` continues with the block merged with that
record, and every strategy it returns has `Version` equal to `x`. -/
theorem C7_first_version (host : Host) (caps : Capabilities) (m : Manifest)
    (utility : NameVer) (first : Dict) (rest : List Value) (x : String)
    (hsel : (selectStrategy m).1 ≠ "")
    (hver : Dict.get (selectStrategy m).2 (.str "versions")
      = some (.list (.map first :: rest)))
    (hv : utility.Version = "")
    (hx : Dict.get first (.str "version") = some (.str x)) :
    selectVersion utility.Version (.map first :: rest) = .ok first ∧
    (LoadStrategy host caps m utility).1 =
      finishStrategy host caps (selectStrategy m).1
        (mergeMaps (Dict.delete (selectStrategy m).2 (.str "versions")) first) ∧
    (∀ s, (LoadStrategy host caps m utility).1 = .ok (some s) → s.Version = x) := by
  have hS : selectVersion utility.Version (.map first :: rest) = .ok first := by
    simp [selectVersion, hv]
  have hL := LoadStrategy_of_versions host caps m utility _ hsel hver
  rw [hS] at hL
  simp only at hL
  refine ⟨hS, hL, ?_⟩
  intro s hs
  rw [hL] at hs
  obtain ⟨arch_map, conf, _, _, hb⟩ := finishStrategy_ok_inv _ _ _ _ _ hs
  have hg := buildStrategy_ok_version _ _ _ _ _ hb
  rw [get_mergeMaps, hx] at hg
  simp only [Option.some.injEq, Value.str.injEq] at hg
  exact hg.symm

/-- C7, witness: no version requested from `bothManifest`, whose docker block lists `1.6`
first: the first record is selected and the returned docker strategy has version `1.6`. -/
theorem C7_first_version_witness :
    selectVersion ""
        [.map [(.str "version", .str "1.6")],
         .map [(.str "version", .str "1.5"), (.str "image", .str "legacy/jq:1.5")]]
      = .ok [(.str "version", .str "1.6")] ∧
    (∃ d, (LoadStrategy homeHost quietCaps bothManifest { Name := "jq", Version := "" }).1
      = .ok (some (.docker d)) ∧ (Strategy.docker d).Version = "1.6") :=
  ⟨(C7_first_version homeHost quietCaps bothManifest { Name := "jq", Version := "" }
      [(.str "version", .str "1.6")]
      [.map [(.str "version", .str "1.5"), (.str "image", .str "legacy/jq:1.5")]]
      "1.6" (by decide) rfl rfl rfl).1,
   ⟨_, rfl,
    (C7_first_version homeHost quietCaps bothManifest { Name := "jq", Version := "" }
      [(.str "version", .str "1.6")]
      [.map [(.str "version", .str "1.5"), (.str "image", .str "legacy/jq:1.5")]]
      "1.6" (by decide) rfl rfl rfl).2.2 _ rfl⟩⟩

/-! ## C8: the template context -/

/-- C8: the `Templater` built from a version, an arch map and a system has that version,
the system's OS and architecture, and as `MappedArch` the arch map's value under the key
`OS_Arch` when the key is present and the empty string when it is absent. -/
theorem C8_templater (version : String) (archMap : List (String × String))
    (system : Capabilities) :
    (StrategyCommon.Templater version archMap system).Version = version ∧
    (StrategyCommon.Templater version archMap system).OS = system.OS ∧
    (StrategyCommon.Templater version archMap system).Arch = system.Arch ∧
    (∀ v, smapGet archMap (system.OS ++ "_" ++ system.Arch) = some v →
      (StrategyCommon.Templater version archMap system).MappedArch = v) ∧
    (smapGet archMap (system.OS ++ "_" ++ system.Arch) = none →
      (StrategyCommon.Templater version archMap system).MappedArch = "") := by
  refine ⟨rfl, rfl, rfl, ?_, ?_⟩
  · intro v hv
    simp [StrategyCommon.Templater, hv]
  · intro hnone
    simp [StrategyCommon.Templater, hnone]

/-- C8, witness: on `linux`/`amd64` an arch map with `linux_amd64` gives its value, and an
arch map without it gives the empty string. -/
theorem C8_templater_witness :
    (StrategyCommon.Templater "1.6" [("darwin_amd64", "osx"), ("linux_amd64", "linux64")]
      quietCaps).MappedArch = "linux64" ∧
    (StrategyCommon.Templater "1.6" [("darwin_amd64", "osx")] quietCaps).MappedArch = "" :=
  ⟨(C8_templater "1.6" [("darwin_amd64", "osx"), ("linux_amd64", "linux64")] quietCaps).2.2.2.1
      "linux64" (by decide),
   (C8_templater "1.6" [("darwin_amd64", "osx")] quietCaps).2.2.2.2 (by decide)⟩

/-! ## C9: optional docker flags -/

theorem andBool_ok (o : Option Value) (x : Bool) (h : andBool o = .ok x) :
    (o = none → x = false) ∧ (∀ b, o = some (.bool b) → x = b) := by
  cases o with
  | none => simp_all [andBool]
  | some v => cases v <;> simp_all [andBool]

theorem orBool_ok (o : Option Value) (x : Bool) (h : orBool o = .ok x) :
    (o = none → x = true) ∧ (∀ b, o = some (.bool b) → x = b) := by
  cases o with
  | none => simp_all [orBool]
  | some v => cases v <;> simp_all [orBool]

/-- C9: a docker strategy `LoadStrategy` returns was built from the map merged from the
selected block without `versions` and a selected version record, and in that map:
`Interactive` is true when `interactive` is absent and is the boolean stored when present;
`MountPwd` is false when `mount_pwd` is absent and is the boolean stored when present;
`DockerConn` is false when `docker_conn` is absent and is the boolean stored when
present. -/
theorem C9_docker_flags (host : Host) (caps : Capabilities) (m : Manifest)
    (utility : NameVer) (d : DockerStrategy)
    (h : (LoadStrategy host caps m utility).1 = .ok (some (.docker d))) :
    ∃ versions V,
      Dict.get (selectStrategy m).2 (.str "versions") = some (.list versions) ∧
      selectVersion utility.Version versions = .ok V ∧
      (Dict.get (mergeMaps (Dict.delete (selectStrategy m).2 (.str "versions")) V)
          (.str "interactive") = none → d.Data.Interactive = true) ∧
      (∀ b, Dict.get (mergeMaps (Dict.delete (selectStrategy m).2 (.str "versions")) V)
          (.str "interactive") = some (.bool b) → d.Data.Interactive = b) ∧
      (Dict.get (mergeMaps (Dict.delete (selectStrategy m).2 (.str "versions")) V)
          (.str "mount_pwd") = none → d.Data.MountPwd = false) ∧
      (∀ b, Dict.get (mergeMaps (Dict.delete (selectStrategy m).2 (.str "versions")) V)
          (.str "mount_pwd") = some (.bool b) → d.Data.MountPwd = b) ∧
      (Dict.get (mergeMaps (Dict.delete (selectStrategy m).2 (.str "versions")) V)
          (.str "docker_conn") = none → d.Data.DockerConn = false) ∧
      (∀ b, Dict.get (mergeMaps (Dict.delete (selectStrategy m).2 (.str "versions")) V)
          (.str "docker_conn") = some (.bool b) → d.Data.DockerConn = b) := by
  obtain ⟨versions, V, _, hver, hV, hf⟩ := LoadStrategy_ok_inv _ _ _ _ _ h
  obtain ⟨arch_map, conf, _, _, hb⟩ := finishStrategy_ok_inv _ _ _ _ _ hf
  refine ⟨versions, V, hver, hV, ?_⟩
  rcases buildStrategy_ok_inv _ _ _ _ _ hb with
    ⟨_, image, dd, _, hd, hs⟩ | ⟨_, url, dd, _, _, hs⟩
  · injection hs with hs
    subst hs
    obtain ⟨_, _, hm, hc, hi, _⟩ := dockerData_ok_inv _ _ _ _ hd
    exact ⟨(orBool_ok _ _ hi).1, (orBool_ok _ _ hi).2, (andBool_ok _ _ hm).1,
      (andBool_ok _ _ hm).2, (andBool_ok _ _ hc).1, (andBool_ok _ _ hc).2⟩
  · cases hs


/-- C9, witness: `flaggedManifest` sets `mount_pwd` in the block and `interactive` in the
version record and leaves `docker_conn` out; `LoadStrategy` returns `flaggedStrategy`. -/
theorem C9_docker_flags_witness :
    (LoadStrategy homeHost quietCaps flaggedManifest { Name := "jq", Version := "" }).1
      = .ok (some (.docker flaggedStrategy)) ∧
    flaggedStrategy.Data.Interactive = false ∧
    flaggedStrategy.Data.MountPwd = true ∧
    flaggedStrategy.Data.DockerConn = false ∧
    ∃ versions V,
      Dict.get (selectStrategy flaggedManifest).2 (.str "versions") = some (.list versions) ∧
      selectVersion "" versions = .ok V ∧
      (Dict.get (mergeMaps (Dict.delete (selectStrategy flaggedManifest).2 (.str "versions")) V)
          (.str "interactive") = none → flaggedStrategy.Data.Interactive = true) ∧
      (∀ b, Dict.get (mergeMaps (Dict.delete (selectStrategy flaggedManifest).2
          (.str "versions")) V) (.str "interactive") = some (.bool b) →
          flaggedStrategy.Data.Interactive = b) ∧
      (Dict.get (mergeMaps (Dict.delete (selectStrategy flaggedManifest).2 (.str "versions")) V)
          (.str "mount_pwd") = none → flaggedStrategy.Data.MountPwd = false) ∧
      (∀ b, Dict.get (mergeMaps (Dict.delete (selectStrategy flaggedManifest).2
          (.str "versions")) V) (.str "mount_pwd") = some (.bool b) →
          flaggedStrategy.Data.MountPwd = b) ∧
      (Dict.get (mergeMaps (Dict.delete (selectStrategy flaggedManifest).2 (.str "versions")) V)
          (.str "docker_conn") = none → flaggedStrategy.Data.DockerConn = false) ∧
      (∀ b, Dict.get (mergeMaps (Dict.delete (selectStrategy flaggedManifest).2
          (.str "versions")) V) (.str "docker_conn") = some (.bool b) →
          flaggedStrategy.Data.DockerConn = b) :=
  ⟨rfl, rfl, rfl, rfl,
    C9_docker_flags homeHost quietCaps flaggedManifest { Name := "jq", Version := "" }
      flaggedStrategy rfl⟩

/-! ## C10: running a docker strategy -/

/-- C10, as stated, fails: with the image templated and pulled successfully,
`DockerStrategy.Run` makes no exec-replace call at all; the `docker run` goes through the
supervised `RunCommand`. -/
theorem C10_counterexample :
    verbatimTemplate (StrategyCommon.Templater flaggedStrategy.Data.Version
        flaggedStrategy.Data.ArchMap flaggedStrategy.common.caps) flaggedStrategy.Data.Image
      = .ok "example/jq" ∧
    flaggedStrategy.common.caps.PullDockerImage "example/jq" = none ∧
    (DockerStrategy.Run verbatimTemplate flaggedStrategy ["--version"]).1
      = [.PullDockerImage "example/jq",
         .RunCommand "docker" ["run", "example/jq", "--version"]] ∧
    ((DockerStrategy.Run verbatimTemplate flaggedStrategy ["--version"]).1.filter
      Call.isExecReplace).length = 0 :=
  ⟨rfl, rfl, rfl, rfl⟩

/-- C10, amended: for every argument list `args`, when templating the image gives `image`
and pulling it succeeds, `DockerStrategy.Run` calls the pull and then the supervised
`RunCommand`, the only call it makes on the Runner: exactly once, with command `docker`
and the arguments `run`, `image`, then `args` unchanged and in order; it makes no
exec-replace call (`ExecCommand`, `ExecCommandWithEnv`). -/
theorem C10_docker_run (Template : Templater → String → Except String String)
    (ds : DockerStrategy) (args : List String) (image : String)
    (ht : Template (StrategyCommon.Templater ds.Data.Version ds.Data.ArchMap ds.common.caps)
      ds.Data.Image = .ok image)
    (hp : ds.common.caps.PullDockerImage image = none) :
    (DockerStrategy.Run Template ds args).1
      = [.PullDockerImage image, .RunCommand "docker" ("run" :: image :: args)] ∧
    (DockerStrategy.Run Template ds args).1.filter Call.isRunner
      = [.RunCommand "docker" ("run" :: image :: args)] ∧
    (DockerStrategy.Run Template ds args).1.filter Call.isExecReplace = [] := by
  have hrun : (DockerStrategy.Run Template ds args).1
      = [.PullDockerImage image, .RunCommand "docker" ("run" :: image :: args)] := by
    simp [DockerStrategy.Run, ht, hp]
  rw [hrun]
  exact ⟨rfl, rfl, rfl⟩

/-- C10, witness: `flaggedStrategy` run with `--version`. -/
theorem C10_docker_run_witness :
    (DockerStrategy.Run verbatimTemplate flaggedStrategy ["--version"]).1
      = [.PullDockerImage "example/jq",
         .RunCommand "docker" ["run", "example/jq", "--version"]] ∧
    (DockerStrategy.Run verbatimTemplate flaggedStrategy ["--version"]).1.filter Call.isRunner
      = [.RunCommand "docker" ["run", "example/jq", "--version"]] ∧
    (DockerStrategy.Run verbatimTemplate flaggedStrategy ["--version"]).1.filter
      Call.isExecReplace = [] :=
  C10_docker_run verbatimTemplate flaggedStrategy ["--version"] "example/jq" rfl rfl

/-- The empty name: with the priority string `,docker` and a manifest that has a block
under the empty name and a block under `docker`, the loop stops at the empty name, and
`LoadStrategy` reports that no strategy was found. -/
theorem selectStrategy_empty_name :
    (selectStrategy emptyNameManifest).1 = "" ∧
    (LoadStrategy homeHost quietCaps emptyNameManifest { Name := "jq", Version := "" }).1
      = .error (.error "No strategy found, tried ,docker.") :=
  ⟨by decide, rfl⟩

/-! ## C11: running a binary strategy -/

/-- C11, as stated, fails: with the URL templated and the download successful,
`BinaryStrategy.Run` downloads to `local/jq` and runs `local/jq`, and makes no
`MakeExecutable` call on that path between the two, nor anywhere else. -/
theorem C11_counterexample :
    verbatimTemplate (StrategyCommon.Templater plainBinary.Data.Version
        plainBinary.Data.ArchMap plainBinary.common.caps) plainBinary.Data.BaseUrl
      = .ok "https://example.org/jq" ∧
    plainBinary.common.caps.DownloadFile "https://example.org/jq" "local/jq" = none ∧
    (BinaryStrategy.Run verbatimTemplate plainBinary ["--version"]).1
      = [.DownloadFile "https://example.org/jq" "local/jq",
         .RunCommand "local/jq" ["--version"]] ∧
    Call.MakeExecutable "local/jq"
      ∉ (BinaryStrategy.Run verbatimTemplate plainBinary ["--version"]).1 :=
  ⟨rfl, rfl, rfl, by decide⟩

/-- C11, amended: for every argument list `args`, when templating the URL gives `url` and
the download succeeds, `BinaryStrategy.Run` makes two calls: `DownloadFile` with `url` and
the local path `local/jq`, then `RunCommand` on that same path with `args` unchanged; it
calls `MakeExecutable` on no path, and `RunCommand` is its only call on the Runner. -/
theorem C11_binary_run (Template : Templater → String → Except String String)
    (bs : BinaryStrategy) (args : List String) (url : String)
    (ht : Template (StrategyCommon.Templater bs.Data.Version bs.Data.ArchMap bs.common.caps)
      bs.Data.BaseUrl = .ok url)
    (hd : bs.common.caps.DownloadFile url "local/jq" = none) :
    (BinaryStrategy.Run Template bs args).1
      = [.DownloadFile url "local/jq", .RunCommand "local/jq" args] ∧
    (∀ path, Call.MakeExecutable path ∉ (BinaryStrategy.Run Template bs args).1) ∧
    (BinaryStrategy.Run Template bs args).1.filter Call.isRunner
      = [.RunCommand "local/jq" args] := by
  have hrun : (BinaryStrategy.Run Template bs args).1
      = [.DownloadFile url "local/jq", .RunCommand "local/jq" args] := by
    simp [BinaryStrategy.Run, ht, hd]
  rw [hrun]
  refine ⟨rfl, ?_, rfl⟩
  intro path hmem
  simp at hmem

/-- C11, witness: `plainBinary` run with `--version`. -/
theorem C11_binary_run_witness :
    (BinaryStrategy.Run verbatimTemplate plainBinary ["--version"]).1
      = [.DownloadFile "https://example.org/jq" "local/jq",
         .RunCommand "local/jq" ["--version"]] ∧
    (∀ path, Call.MakeExecutable path
      ∉ (BinaryStrategy.Run verbatimTemplate plainBinary ["--version"]).1) ∧
    (BinaryStrategy.Run verbatimTemplate plainBinary ["--version"]).1.filter Call.isRunner
      = [.RunCommand "local/jq" ["--version"]] :=
  C11_binary_run verbatimTemplate plainBinary ["--version"] "https://example.org/jq" rfl rfl

end Holen
